import Mathlib

/-!
Shallow embedding of `src/url_Shortener/url_shortener.py`, a FastAPI + sqlite
URL shortener.  Timestamps are modelled as natural numbers (seconds); the
sqlite database is modelled as explicit state (`DB`) threaded through each
endpoint; `datetime.utcnow()` is an injected `now` argument.  The MD5 digest
used by `generate_short_url` is embedded bit-faithfully (RFC 1321) over the
UTF-8 bytes of the input, with 32-bit words represented as `Nat` reduced
modulo `2 ^ 32`.
-/

namespace UrlShortener

/-- `2 ^ 32`, the modulus for 32-bit words. -/
def M32 : Nat := 4294967296

/-- 32-bit modular addition. -/
def add32 (a b : Nat) : Nat := (a + b) % M32

/-- 32-bit bitwise complement. -/
def not32 (x : Nat) : Nat := Nat.xor x (M32 - 1)

/-- 32-bit left rotation by `s` bits. -/
def rotl32 (x s : Nat) : Nat := x * 2 ^ s % M32 + x / 2 ^ (32 - s)

/-- The 64 MD5 round constants `K[i] = floor(2^32 * |sin(i+1)|)` (RFC 1321). -/
def md5K : List Nat :=
  [3614090360, 3905402710, 606105819, 3250441966, 4118548399, 1200080426,
   2821735955, 4249261313, 1770035416, 2336552879, 4294925233, 2304563134,
   1804603682, 4254626195, 2792965006, 1236535329, 4129170786, 3225465664,
   643717713, 3921069994, 3593408605, 38016083, 3634488961, 3889429448,
   568446438, 3275163606, 4107603335, 1163531501, 2850285829, 4243563512,
   1735328473, 2368359562, 4294588738, 2272392833, 1839030562, 4259657740,
   2763975236, 1272893353, 4139469664, 3200236656, 681279174, 3936430074,
   3572445317, 76029189, 3654602809, 3873151461, 530742520, 3299628645,
   4096336452, 1126891415, 2878612391, 4237533241, 1700485571, 2399980690,
   4293915773, 2240044497, 1873313359, 4264355552, 2734768916, 1309151649,
   4149444226, 3174756917, 718787259, 3951481745]

/-- The 64 per-round left-rotation amounts of MD5 (RFC 1321). -/
def md5S : List Nat :=
  [7, 12, 17, 22, 7, 12, 17, 22, 7, 12, 17, 22, 7, 12, 17, 22,
   5, 9, 14, 20, 5, 9, 14, 20, 5, 9, 14, 20, 5, 9, 14, 20,
   4, 11, 16, 23, 4, 11, 16, 23, 4, 11, 16, 23, 4, 11, 16, 23,
   6, 10, 15, 21, 6, 10, 15, 21, 6, 10, 15, 21, 6, 10, 15, 21]

/-- UTF-8 encoding of a single character as a list of bytes
(Python's `str.encode()`). -/
def utf8Bytes (c : Char) : List Nat :=
  let n := c.toNat
  if n < 128 then [n]
  else if n < 2048 then [192 + n / 64, 128 + n % 64]
  else if n < 65536 then [224 + n / 4096, 128 + n / 64 % 64, 128 + n % 64]
  else [240 + n / 262144, 128 + n / 4096 % 64, 128 + n / 64 % 64, 128 + n % 64]

/-- UTF-8 bytes of a string. -/
def strBytes (s : String) : List Nat :=
  s.data.foldr (fun c acc => utf8Bytes c ++ acc) []

/-- The 8 little-endian bytes of the 64-bit value `n`. -/
def lenBytes64 (n : Nat) : List Nat :=
  (List.range 8).map fun i => n / 2 ^ (8 * i) % 256

/-- MD5 padding: append `0x80`, zero bytes up to 56 mod 64, then the bit
length as a 64-bit little-endian quantity. -/
def md5Pad (msg : List Nat) : List Nat :=
  let l := msg.length
  msg ++ [128] ++ List.replicate ((119 - l % 64) % 64) 0 ++ lenBytes64 (8 * l % 2 ^ 64)

/-- Word `i` of a 64-byte chunk, assembled little-endian. -/
def leWord (bs : List Nat) (i : Nat) : Nat :=
  bs.getD (4 * i) 0 + 256 * bs.getD (4 * i + 1) 0 +
    65536 * bs.getD (4 * i + 2) 0 + 16777216 * bs.getD (4 * i + 3) 0

/-- One of the 64 MD5 rounds, acting on the state `(a, b, c, d)`. -/
def md5Step (m : Nat → Nat) (st : Nat × Nat × Nat × Nat) (i : Nat) :
    Nat × Nat × Nat × Nat :=
  let a := st.1
  let b := st.2.1
  let c := st.2.2.1
  let d := st.2.2.2
  let f :=
    if i < 16 then Nat.lor (Nat.land b c) (Nat.land (not32 b) d)
    else if i < 32 then Nat.lor (Nat.land d b) (Nat.land (not32 d) c)
    else if i < 48 then Nat.xor b (Nat.xor c d)
    else Nat.xor c (Nat.lor b (not32 d))
  let g :=
    if i < 16 then i
    else if i < 32 then (5 * i + 1) % 16
    else if i < 48 then (3 * i + 5) % 16
    else 7 * i % 16
  let tmp := add32 (add32 a f) (add32 (md5K.getD i 0) (m g))
  (d, add32 b (rotl32 tmp (md5S.getD i 0)), b, c)

/-- Process one 64-byte chunk, updating the running MD5 state. -/
def md5Chunk (st : Nat × Nat × Nat × Nat) (chunk : List Nat) :
    Nat × Nat × Nat × Nat :=
  let m := leWord chunk
  let r := (List.range 64).foldl (md5Step m) st
  (add32 st.1 r.1, add32 st.2.1 r.2.1, add32 st.2.2.1 r.2.2.1,
   add32 st.2.2.2 r.2.2.2)

/-- Split a byte list into `n` chunks of 64 bytes. -/
def chunkLoop : Nat → List Nat → List (List Nat)
  | 0, _ => []
  | n + 1, bs => bs.take 64 :: chunkLoop n (bs.drop 64)

/-- The 4 little-endian bytes of a 32-bit word. -/
def wordLEBytes (w : Nat) : List Nat :=
  [w % 256, w / 256 % 256, w / 65536 % 256, w / 16777216 % 256]

/-- Lowercase hexadecimal digit for `n < 16`. -/
def hexChar (n : Nat) : Char :=
  if n < 10 then Char.ofNat (48 + n) else Char.ofNat (87 + n)

/-- Two lowercase hex characters of a byte. -/
def byteHex (b : Nat) : List Char := [hexChar (b / 16), hexChar (b % 16)]

/-- `hashlib.md5(s.encode()).hexdigest()`: the 32-character lowercase
hexadecimal MD5 digest of the UTF-8 encoding of `s`. -/
def md5_hexdigest (s : String) : String :=
  let padded := md5Pad (strBytes s)
  let st := (chunkLoop (padded.length / 64) padded).foldl md5Chunk
    (1732584193, 4023233417, 2562383102, 271733878)
  String.mk (((wordLEBytes st.1 ++ wordLEBytes st.2.1 ++ wordLEBytes st.2.2.1 ++
    wordLEBytes st.2.2.2).foldr (fun b acc => byteHex b ++ acc) []))

/-- `generate_short_url(original_url)` (line 43): the first 6 characters of
the MD5 hexdigest of the URL (Python's `hexdigest()[:6]`). -/
def generate_short_url (original_url : String) : String :=
  String.mk ((md5_hexdigest original_url).data.take 6)

/-- A row of the `urls` table (line 19): `short_url` is `UNIQUE NOT NULL`;
`access_count` has `DEFAULT 0`.  The `TEXT` timestamps (second precision via
`strftime "%Y-%m-%d %H:%M:%S"`) are modelled as seconds. -/
structure UrlRecord where
  original_url : String
  short_url : String
  creation_time : Nat
  expiration_time : Nat
  access_count : Nat
deriving DecidableEq, Repr

/-- A row of the `logs` table (line 31). -/
structure LogEntry where
  short_url : String
  access_time : Nat
  ip_address : String
deriving DecidableEq, Repr

/-- The sqlite database state: rows of `urls` and `logs` in insertion
(rowid) order. -/
structure DB where
  urls : List UrlRecord
  logs : List LogEntry
deriving DecidableEq, Repr

/-- The freshly initialised database of `init_db` (line 11). -/
def DB.empty : DB := ⟨[], []⟩

/-- The `UNIQUE` constraint on `urls.short_url`: the codes of the stored
records are pairwise distinct. -/
def DB.wf (db : DB) : Prop := (db.urls.map fun r => r.short_url).Nodup

instance (db : DB) : Decidable db.wf := by unfold DB.wf; infer_instance

/-- `SELECT ... FROM urls WHERE short_url = ?` with `fetchone()`:
the first stored row with the given code, if any. -/
def select_record (db : DB) (short_url : String) : Option UrlRecord :=
  db.urls.find? fun r => r.short_url == short_url

/-- `is_expired(expiration_time)` (line 56): `datetime.utcnow()` is strictly
past the stored expiration time. -/
def is_expired (now expiration_time : Nat) : Bool :=
  decide (now > expiration_time)

/-- `shorten_url` (line 79): derive the code, attempt
`INSERT INTO urls (original_url, short_url, creation_time, expiration_time)`
(`access_count` takes its `DEFAULT 0`), and on `sqlite3.IntegrityError`
(the `UNIQUE` constraint on `short_url` fires) silently `pass`.  The
endpoint always answers `{"short_url": "https://short.ly/" ++ code}`; we
return the code itself alongside the new state.  `expiry_hours` is the
request's TTL; `expiration_time = utcnow() + timedelta(hours=expiry_hours)`. -/
def shorten_url (now expiry_hours : Nat) (original_url : String) (db : DB) :
    DB × String :=
  (if db.urls.any (fun r => r.short_url == generate_short_url original_url)
   then db
   else { db with urls := db.urls ++
      [{ original_url := original_url,
         short_url := generate_short_url original_url,
         creation_time := now, expiration_time := now + expiry_hours * 3600,
         access_count := 0 }] },
   generate_short_url original_url)

/-- The row inserted by a collision-free shortening request. -/
def freshRecord (now expiry_hours : Nat) (original_url : String) : UrlRecord :=
  { original_url := original_url,
    short_url := generate_short_url original_url,
    creation_time := now, expiration_time := now + expiry_hours * 3600,
    access_count := 0 }

/-- The returned code is always the raw 6-character digest of the URL,
whatever the database holds. -/
theorem shorten_url_snd (now ttl : Nat) (u : String) (db : DB) :
    (shorten_url now ttl u db).2 = generate_short_url u := rfl

/-- When some row already holds the candidate code, the `INSERT` raises
`IntegrityError`, the handler `pass`es, and the state is unchanged. -/
theorem shorten_url_fst_present (now ttl : Nat) (u : String) (db : DB)
    (h : db.urls.any (fun r => r.short_url == generate_short_url u) = true) :
    (shorten_url now ttl u db).1 = db := by
  unfold shorten_url
  rw [if_pos h]

/-- When the candidate code is free, the fresh row is appended. -/
theorem shorten_url_fst_free (now ttl : Nat) (u : String) (db : DB)
    (h : db.urls.any (fun r => r.short_url == generate_short_url u) = false) :
    (shorten_url now ttl u db).1 =
      { db with urls := db.urls ++ [freshRecord now ttl u] } := by
  unfold shorten_url freshRecord
  rw [if_neg (by simp [h])]

/-- Outcome of the redirect endpoint: `404 Short URL not found`,
`410 This URL has expired`, an unhandled exception raised by the
`INSERT INTO logs` statement (propagates out of the handler, producing a
server error), or the successful `{"original_url": ...}` response. -/
inductive RedirectResult where
  | notFound
  | expired
  | logFailure
  | ok (original_url : String)
deriving DecidableEq, Repr

/-- `redirect_url` (line 118) with an explicit environment flag `logOk`
telling whether the `INSERT INTO logs` statement succeeds.  When it raises
(e.g. `sqlite3.OperationalError`), the exception propagates before
`conn.commit()`, so no write is committed and the connection's pending
changes are discarded: the state is returned unchanged.  On the happy path
the log row is appended and
`UPDATE urls SET access_count = access_count + 1 WHERE short_url = ?`
increments every matching row, and both writes commit together. -/
def redirect_url_f (logOk : Bool) (now : Nat) (client_host short_url : String)
    (db : DB) : DB × RedirectResult :=
  match select_record db short_url with
  | none => (db, .notFound)
  | some row =>
    if is_expired now row.expiration_time then (db, .expired)
    else if logOk then
      ({ urls := db.urls.map fun r =>
           if r.short_url == short_url then
             { r with access_count := r.access_count + 1 }
           else r,
         logs := db.logs ++
           [{ short_url := short_url, access_time := now,
              ip_address := client_host }] },
       .ok row.original_url)
    else (db, .logFailure)

/-- `redirect_url` (line 118) when the persistence layer is available. -/
def redirect_url (now : Nat) (client_host short_url : String) (db : DB) :
    DB × RedirectResult :=
  redirect_url_f true now client_host short_url db

/-- The analytics view returned by `get_analytics` (line 206): the record's
fields plus the `(access_time, ip_address)` pairs of its log rows. -/
structure Analytics where
  original_url : String
  access_count : Nat
  expiration_time : Nat
  logs : List (Nat × String)
deriving DecidableEq, Repr

/-- `get_analytics` (line 174): `404` when no `urls` row matches; otherwise
the record's data together with
`SELECT access_time, ip_address FROM logs WHERE short_url = ?`, whose rows
come back in insertion (rowid) order.  Read-only: the state is untouched. -/
def get_analytics (short_url : String) (db : DB) : Option Analytics :=
  match select_record db short_url with
  | none => none
  | some row => some
      { original_url := row.original_url,
        access_count := row.access_count,
        expiration_time := row.expiration_time,
        logs := (db.logs.filter fun l => l.short_url == short_url).map
          fun l => (l.access_time, l.ip_address) }

/-- One client request against the service. -/
inductive Op where
  | shorten (now expiry_hours : Nat) (original_url : String)
  | redirect (now : Nat) (client_host short_url : String)
  | report (short_url : String)

/-- State transition of the database under one request (`get_analytics`
performs only `SELECT`s). -/
def step (db : DB) (op : Op) : DB :=
  match op with
  | .shorten now ttl u => (shorten_url now ttl u db).1
  | .redirect now h c => (redirect_url now h c db).1
  | .report _ => db

/-! ### Helper lemmas -/

set_option maxRecDepth 1000000

/-- The counter update of the `UPDATE urls` statement does not change which
rows match the `WHERE short_url = ?` clause. -/
theorem update_keeps_code (code : String) (r : UrlRecord) :
    ((if r.short_url == code then
        { r with access_count := r.access_count + 1 } else r).short_url == code)
      = (r.short_url == code) := by
  by_cases h : r.short_url == code <;> simp [h]

/-- `SELECT`-ing after the counter `UPDATE` returns the previously selected
row with its counter incremented. -/
theorem find?_update (code : String) (l : List UrlRecord) :
    (l.map fun r => if r.short_url == code then
        { r with access_count := r.access_count + 1 } else r).find?
        (fun r => r.short_url == code) =
      (l.find? fun r => r.short_url == code).map
        fun r => { r with access_count := r.access_count + 1 } := by
  rw [List.find?_map]
  have hp : ((fun r : UrlRecord => r.short_url == code) ∘ fun r =>
      if r.short_url == code then
        { r with access_count := r.access_count + 1 } else r) =
      fun r : UrlRecord => r.short_url == code := by
    funext r
    simp only [Function.comp]
    exact update_keeps_code code r
  rw [hp]
  cases hf : l.find? fun r => r.short_url == code with
  | none => rfl
  | some r =>
    have := List.find?_some hf
    simp [Option.map, this]

/-- Unfolding of a successful redirect: the row exists and is not expired,
so the log row is appended, every row matching the code is incremented, and
the original URL is returned. -/
theorem redirect_url_success (db : DB) (now : Nat) (client_host code : String)
    (r : UrlRecord) (hr : select_record db code = some r)
    (hexp : ¬ now > r.expiration_time) :
    redirect_url now client_host code db =
      ({ urls := db.urls.map fun x =>
           if x.short_url == code then
             { x with access_count := x.access_count + 1 } else x,
         logs := db.logs ++
           [{ short_url := code, access_time := now,
              ip_address := client_host }] },
       .ok r.original_url) := by
  simp [redirect_url, redirect_url_f, hr, is_expired, hexp]

/-- After a successful redirect the selected row is the old row with its
counter incremented by one. -/
theorem select_record_after_success (db : DB) (now : Nat)
    (client_host code : String) (r : UrlRecord)
    (hr : select_record db code = some r)
    (hexp : ¬ now > r.expiration_time) :
    select_record (redirect_url now client_host code db).1 code =
      some { r with access_count := r.access_count + 1 } := by
  rw [redirect_url_success db now client_host code r hr hexp]
  simp only [select_record] at hr ⊢
  rw [find?_update, hr, Option.map]

/-- When no row matches the code, the counter `UPDATE` is the identity. -/
theorem map_update_eq_self (code : String) (l : List UrlRecord)
    (h : ∀ r ∈ l, (r.short_url == code) = false) :
    (l.map fun r => if r.short_url == code then
        { r with access_count := r.access_count + 1 } else r) = l := by
  induction l with
  | nil => rfl
  | cons a t ih =>
    have ha := h a (List.mem_cons_self a t)
    rw [List.map_cons, if_neg (by simp [ha]),
      ih fun r hr => h r (List.mem_cons_of_mem a hr)]

/-- Under the `UNIQUE` constraint, the counter `UPDATE` raises the total of
all stored counters by exactly one when some row matches the code. -/
theorem sum_counts_after_update (code : String) (l : List UrlRecord)
    (hnd : (l.map fun r => r.short_url).Nodup)
    (hex : ∃ r ∈ l, (r.short_url == code) = true) :
    ((l.map fun r => if r.short_url == code then
        { r with access_count := r.access_count + 1 } else r).map
      fun r => r.access_count).sum = ((l.map fun r => r.access_count).sum) + 1 := by
  induction l with
  | nil => simp at hex
  | cons a t ih =>
    simp only [List.map_cons, List.nodup_cons] at hnd
    by_cases pa : (a.short_url == code) = true
    · have hnone : ∀ r ∈ t, (r.short_url == code) = false := by
        intro r hr
        rw [Bool.eq_false_iff]
        intro hc
        have hrc : r.short_url = code := by simpa using hc
        have hac : a.short_url = code := by simpa using pa
        exact hnd.1 (by
          rw [hac, ← hrc]
          exact List.mem_map_of_mem (fun r => r.short_url) hr)
      rw [List.map_cons, map_update_eq_self code t hnone]
      simp [pa]
      omega
    · obtain ⟨r, hr, hrc⟩ := hex
      rcases List.mem_cons.mp hr with rfl | hrt
      · exact absurd hrc pa
      · simp only [List.map_cons, if_neg pa, List.map_cons, List.sum_cons]
        rw [ih hnd.2 ⟨r, hrt, hrc⟩]
        omega

/-! ### Claims -/

/-- C2: `resolve(code)` fails with `NotFound` (404) when no row exists, fails
with `Expired` (410) when `now` is past the stored expiration time, and
otherwise returns the stored `original_url`, incrementing the stored
`access_count` by exactly one (the selected row's counter goes up by one,
and the total of all counters rises by exactly one); `NotFound` and
`Expired` are distinct outcomes. -/
theorem c2_resolve_spec (db : DB) (now : Nat) (client_host code : String)
    (hwf : db.wf) :
    (select_record db code = none →
      redirect_url now client_host code db = (db, RedirectResult.notFound)) ∧
    (∀ r, select_record db code = some r → now > r.expiration_time →
      redirect_url now client_host code db = (db, RedirectResult.expired)) ∧
    (∀ r, select_record db code = some r → ¬ now > r.expiration_time →
      (redirect_url now client_host code db).2 =
        RedirectResult.ok r.original_url ∧
      select_record (redirect_url now client_host code db).1 code =
        some { r with access_count := r.access_count + 1 } ∧
      ((redirect_url now client_host code db).1.urls.map
          fun x => x.access_count).sum =
        (db.urls.map fun x => x.access_count).sum + 1) ∧
    RedirectResult.notFound ≠ RedirectResult.expired := by
  refine ⟨?_, ?_, ?_, by simp⟩
  · intro h
    simp [redirect_url, redirect_url_f, h]
  · intro r hr h2
    simp [redirect_url, redirect_url_f, hr, is_expired, h2]
  · intro r hr h2
    refine ⟨?_, select_record_after_success db now client_host code r hr h2, ?_⟩
    · rw [redirect_url_success db now client_host code r hr h2]
    · rw [redirect_url_success db now client_host code r hr h2]
      have hr' : db.urls.find? (fun x => x.short_url == code) = some r := hr
      exact sum_counts_after_update code db.urls hwf
        ⟨r, List.mem_of_find?_eq_some hr', by
          have h3 := List.find?_some hr'
          simpa using h3⟩

/-- A stored record used by the concrete witnesses. -/
def sampleRecord : UrlRecord :=
  { original_url := "https://example.com/", short_url := "abc123",
    creation_time := 0, expiration_time := 86400, access_count := 0 }

/-- A one-record database used by the concrete witnesses. -/
def sampleDB : DB := ⟨[sampleRecord], []⟩

/-- Witness for C2 at a concrete database: resolving the stored code before
expiry returns the stored URL. -/
theorem c2_resolve_spec_witness :
    (redirect_url 5 "1.2.3.4" "abc123" sampleDB).2 =
      RedirectResult.ok "https://example.com/" :=
  ((c2_resolve_spec sampleDB 5 "1.2.3.4" "abc123" (by decide)).2.2.1
    sampleRecord (by decide) (by decide)).1

/-- C10: a failed resolution (`NotFound` or `Expired`) leaves the database
unchanged — no log row, no counter change, no record modified (the handler
closes the connection before any write). -/
theorem c10_error_atomicity (db : DB) (now : Nat) (client_host code : String)
    (hfail : (redirect_url now client_host code db).2 = RedirectResult.notFound ∨
      (redirect_url now client_host code db).2 = RedirectResult.expired) :
    (redirect_url now client_host code db).1 = db := by
  cases hsel : select_record db code with
  | none => simp [redirect_url, redirect_url_f, hsel]
  | some row =>
    by_cases hexp : is_expired now row.expiration_time
    · simp [redirect_url, redirect_url_f, hsel, hexp]
    · simp [redirect_url, redirect_url_f, hsel, hexp] at hfail ⊢

/-- Witness for C10: an unknown code leaves the concrete database intact. -/
theorem c10_error_atomicity_witness :
    (redirect_url 5 "1.2.3.4" "nosuch" sampleDB).1 = sampleDB :=
  c10_error_atomicity sampleDB 5 "1.2.3.4" "nosuch" (by decide)

/-- After a shortening request for `u`, some row carries `u`'s candidate
code (either it was just inserted, or it already existed and the `UNIQUE`
violation was swallowed). -/
theorem shorten_code_present (now ttl : Nat) (u : String) (db : DB) :
    (shorten_url now ttl u db).1.urls.any
      (fun r => r.short_url == generate_short_url u) = true := by
  by_cases h : db.urls.any (fun r => r.short_url == generate_short_url u)
  · simp [shorten_url, h]
  · simp [shorten_url, h, List.any_append]

/-- Shortening preserves the `UNIQUE` constraint on `short_url`. -/
theorem shorten_preserves_wf (now ttl : Nat) (u : String) (db : DB)
    (hwf : db.wf) : (shorten_url now ttl u db).1.wf := by
  by_cases h : db.urls.any (fun r => r.short_url == generate_short_url u)
  · rw [shorten_url_fst_present now ttl u db h]
    exact hwf
  · rw [Bool.not_eq_true] at h
    rw [shorten_url_fst_free now ttl u db h]
    rw [List.any_eq_false] at h
    simp only [DB.wf, List.map_append, List.nodup_append]
    refine ⟨hwf, by simp, ?_⟩
    intro x hx
    simp only [freshRecord, List.map_cons, List.map_nil, List.mem_singleton]
    obtain ⟨r, hr, rfl⟩ := List.mem_map.mp hx
    intro hc
    exact h r hr (by simp [hc])

/-- C4: shortening the same URL twice returns the same code both times and
stores no duplicate row — the second call leaves the database exactly as the
first left it, and the `UNIQUE` constraint keeps holding. -/
theorem c4_idempotent (now1 now2 ttl1 ttl2 : Nat) (u : String) (db : DB)
    (hwf : db.wf) :
    (shorten_url now2 ttl2 u (shorten_url now1 ttl1 u db).1).2 =
      (shorten_url now1 ttl1 u db).2 ∧
    (shorten_url now2 ttl2 u (shorten_url now1 ttl1 u db).1).1 =
      (shorten_url now1 ttl1 u db).1 ∧
    (shorten_url now1 ttl1 u db).1.wf := by
  refine ⟨rfl, ?_, shorten_preserves_wf now1 ttl1 u db hwf⟩
  exact shorten_url_fst_present now2 ttl2 u (shorten_url now1 ttl1 u db).1
    (shorten_code_present now1 ttl1 u db)

/-- Witness for C4 on the empty database and a concrete URL. -/
theorem c4_idempotent_witness :
    (shorten_url 5 24 "https://example.com/"
        (shorten_url 0 24 "https://example.com/" DB.empty).1).2 =
      (shorten_url 0 24 "https://example.com/" DB.empty).2 ∧
    (shorten_url 5 24 "https://example.com/"
        (shorten_url 0 24 "https://example.com/" DB.empty).1).1 =
      (shorten_url 0 24 "https://example.com/" DB.empty).1 ∧
    (shorten_url 0 24 "https://example.com/" DB.empty).1.wf :=
  c4_idempotent 0 5 24 24 "https://example.com/" DB.empty (by decide)

/-- C7: `report(code)` fails exactly when no row exists — independently of
expiry, since no clock is consulted — and otherwise returns the stored URL,
counter and expiration together with the code's log rows in insertion
order; a successful redirect makes the new entry appear at the end of the
reported log list. -/
theorem c7_report_spec (db : DB) (code : String) :
    (select_record db code = none → get_analytics code db = none) ∧
    (∀ r, select_record db code = some r →
      get_analytics code db = some
        { original_url := r.original_url, access_count := r.access_count,
          expiration_time := r.expiration_time,
          logs := (db.logs.filter fun l => l.short_url == code).map
            fun l => (l.access_time, l.ip_address) }) ∧
    (∀ r now client_host, select_record db code = some r →
      ¬ now > r.expiration_time →
      get_analytics code (redirect_url now client_host code db).1 = some
        { original_url := r.original_url,
          access_count := r.access_count + 1,
          expiration_time := r.expiration_time,
          logs := ((db.logs.filter fun l => l.short_url == code).map
            fun l => (l.access_time, l.ip_address)) ++ [(now, client_host)] }) := by
  refine ⟨?_, ?_, ?_⟩
  · intro h
    simp [get_analytics, h]
  · intro r hr
    simp [get_analytics, hr]
  · intro r now client_host hr hexp
    rw [redirect_url_success db now client_host code r hr hexp]
    have hsel := select_record_after_success db now client_host code r hr hexp
    rw [redirect_url_success db now client_host code r hr hexp] at hsel
    simp only [get_analytics, hsel, List.filter_append, List.map_append]
    simp [List.filter]

/-- Witness for C7: reporting the stored sample code. -/
theorem c7_report_spec_witness :
    get_analytics "abc123" sampleDB = some
      { original_url := "https://example.com/", access_count := 0,
        expiration_time := 86400, logs := [] } :=
  (c7_report_spec sampleDB "abc123").2.1 sampleRecord (by decide)

/-- C8 counterexample: with a stored, unexpired record, a failing
`INSERT INTO logs` makes the whole redirect fail — the outcome is the
propagated exception, not a successful `ok` response, and the counter
increment is rolled back (the state, counter included, is unchanged). -/
theorem c8_log_failure_counterexample :
    (redirect_url_f false 5 "1.2.3.4" "abc123" sampleDB).2 =
        RedirectResult.logFailure ∧
      (∀ u, RedirectResult.logFailure ≠ RedirectResult.ok u) ∧
      (redirect_url_f false 5 "1.2.3.4" "abc123" sampleDB).1 = sampleDB := by
  refine ⟨by decide, fun u => by simp, by decide⟩

/-- C8 (amended): when the log append fails during the resolution of an
existing, unexpired code, the resolution fails as a whole — the exception
propagates before `conn.commit()`, so no URL is returned and neither the
log row nor the counter increment is committed. -/
theorem c8_log_failure_aborts (db : DB) (now : Nat) (client_host code : String)
    (r : UrlRecord) (hr : select_record db code = some r)
    (hexp : ¬ now > r.expiration_time) :
    redirect_url_f false now client_host code db =
      (db, RedirectResult.logFailure) := by
  simp [redirect_url_f, hr, is_expired, hexp]

/-- Witness for the amended C8 at the concrete sample database. -/
theorem c8_log_failure_aborts_witness :
    redirect_url_f false 7 "1.2.3.4" "abc123" sampleDB =
      (sampleDB, RedirectResult.logFailure) :=
  c8_log_failure_aborts sampleDB 7 "1.2.3.4" "abc123" sampleRecord
    (by decide) (by decide)

/-- Monotonicity of the stored counters under one request: every stored row
keeps a row with its code whose counter is at least as large. -/
theorem step_mono (db : DB) (op : Op) (r : UrlRecord) (hr : r ∈ db.urls) :
    ∃ r' ∈ (step db op).urls,
      r'.short_url = r.short_url ∧ r.access_count ≤ r'.access_count := by
  cases op with
  | shorten now ttl u =>
    by_cases h : db.urls.any (fun x => x.short_url == generate_short_url u)
    · exact ⟨r, by rw [step, shorten_url_fst_present now ttl u db h]; exact hr,
        rfl, Nat.le_refl _⟩
    · rw [Bool.not_eq_true] at h
      exact ⟨r, by
        rw [step, shorten_url_fst_free now ttl u db h]
        exact List.mem_append_left _ hr, rfl, Nat.le_refl _⟩
  | redirect now h c =>
    cases hsel : select_record db c with
    | none =>
      refine ⟨r, ?_, rfl, Nat.le_refl _⟩
      simpa [step, redirect_url, redirect_url_f, hsel] using hr
    | some row =>
      by_cases hexp : is_expired now row.expiration_time
      · refine ⟨r, ?_, rfl, Nat.le_refl _⟩
        simpa [step, redirect_url, redirect_url_f, hsel, hexp] using hr
      · refine ⟨if r.short_url == c then
            { r with access_count := r.access_count + 1 } else r, ?_, ?_, ?_⟩
        · simp only [step, redirect_url, redirect_url_f, hsel, if_neg hexp,
            if_pos rfl]
          exact List.mem_map_of_mem _ hr
        · by_cases hc : r.short_url == c <;> simp [hc]
        · by_cases hc : r.short_url == c <;> simp [hc]
  | report s => exact ⟨r, hr, rfl, Nat.le_refl _⟩

/-- Monotonicity of the stored counters under any request sequence. -/
theorem steps_mono (ops : List Op) (db : DB) (r : UrlRecord)
    (hr : r ∈ db.urls) :
    ∃ r' ∈ (List.foldl step db ops).urls,
      r'.short_url = r.short_url ∧ r.access_count ≤ r'.access_count := by
  induction ops generalizing db r with
  | nil => exact ⟨r, hr, rfl, Nat.le_refl _⟩
  | cons op rest ih =>
    obtain ⟨r1, hr1, hcode1, hle1⟩ := step_mono db op r hr
    obtain ⟨r2, hr2, hcode2, hle2⟩ := ih (step db op) r1 hr1
    exact ⟨r2, hr2, hcode2.trans hcode1, hle1.trans hle2⟩

/-- C5: counters are initialised to `0` on creation (fresh rows carry
`access_count = 0`), never decrease across any request sequence, and change
only through successful resolutions — shortening keeps every existing row,
analytics performs no write, and a failed resolution leaves the state
untouched. -/
theorem c5_access_count_invariant (db : DB) :
    (∀ now ttl u,
      db.urls.any (fun x => x.short_url == generate_short_url u) = false →
      (step db (Op.shorten now ttl u)).urls =
        db.urls ++ [freshRecord now ttl u] ∧
      (freshRecord now ttl u).access_count = 0) ∧
    (∀ ops : List Op, ∀ r ∈ db.urls,
      ∃ r' ∈ (List.foldl step db ops).urls,
        r'.short_url = r.short_url ∧ r.access_count ≤ r'.access_count) ∧
    (∀ now ttl u, ∀ r ∈ db.urls, r ∈ (step db (Op.shorten now ttl u)).urls) ∧
    (∀ s, step db (Op.report s) = db) ∧
    (∀ now client_host c,
      (∀ u, (redirect_url now client_host c db).2 ≠ RedirectResult.ok u) →
      (redirect_url now client_host c db).1 = db) := by
  refine ⟨?_, fun ops r hr => steps_mono ops db r hr, ?_, fun s => rfl, ?_⟩
  · intro now ttl u h
    rw [step, shorten_url_fst_free now ttl u db h]
    exact ⟨rfl, rfl⟩
  · intro now ttl u r hr
    by_cases h : db.urls.any (fun x => x.short_url == generate_short_url u)
    · rw [step, shorten_url_fst_present now ttl u db h]
      exact hr
    · rw [Bool.not_eq_true] at h
      rw [step, shorten_url_fst_free now ttl u db h]
      exact List.mem_append_left _ hr
  · intro now client_host c hne
    cases hsel : select_record db c with
    | none => simp [redirect_url, redirect_url_f, hsel]
    | some row =>
      by_cases hexp : is_expired now row.expiration_time
      · simp [redirect_url, redirect_url_f, hsel, hexp]
      · have hok : (redirect_url now client_host c db).2 =
            RedirectResult.ok row.original_url := by
          simp [redirect_url, redirect_url_f, hsel, hexp]
        exact absurd hok (hne row.original_url)

/-- Witness for C5 at the concrete sample database: the stored record keeps
a non-decreasing counter under a concrete request sequence. -/
theorem c5_access_count_invariant_witness :
    ∃ r' ∈ (List.foldl step sampleDB
        [Op.redirect 1 "1.2.3.4" "abc123", Op.report "abc123"]).urls,
      r'.short_url = sampleRecord.short_url ∧
        sampleRecord.access_count ≤ r'.access_count :=
  (c5_access_count_invariant sampleDB).2.1
    [Op.redirect 1 "1.2.3.4" "abc123", Op.report "abc123"]
    sampleRecord (by decide)

/-- C6: the log is append-only under every request — existing entries are
never updated or removed; a successful resolution appends exactly one entry,
carrying the resolved code, an existing record's code, and only when that
record is unexpired (expiry is checked before the `INSERT INTO logs`); a
failed resolution, a shortening request and an analytics request append
nothing. -/
theorem c6_log_invariant (db : DB) (op : Op) :
    (∃ t, (step db op).logs = db.logs ++ t) ∧
    (∀ now client_host c u,
      (redirect_url now client_host c db).2 = RedirectResult.ok u →
      (redirect_url now client_host c db).1.logs = db.logs ++
          [{ short_url := c, access_time := now, ip_address := client_host }] ∧
        ∃ r ∈ db.urls, r.short_url = c ∧ ¬ now > r.expiration_time) ∧
    (∀ now client_host c,
      (∀ u, (redirect_url now client_host c db).2 ≠ RedirectResult.ok u) →
      (redirect_url now client_host c db).1.logs = db.logs) ∧
    (∀ now ttl u, (step db (Op.shorten now ttl u)).logs = db.logs) ∧
    (∀ s, (step db (Op.report s)).logs = db.logs) := by
  refine ⟨?_, ?_, ?_, ?_, fun s => rfl⟩
  · cases op with
    | shorten now ttl u =>
      by_cases h : db.urls.any (fun x => x.short_url == generate_short_url u)
      · exact ⟨[], by rw [step, shorten_url_fst_present now ttl u db h]; simp⟩
      · rw [Bool.not_eq_true] at h
        exact ⟨[], by rw [step, shorten_url_fst_free now ttl u db h]; simp⟩
    | redirect now h c =>
      cases hsel : select_record db c with
      | none => exact ⟨[], by simp [step, redirect_url, redirect_url_f, hsel]⟩
      | some row =>
        by_cases hexp : is_expired now row.expiration_time
        · exact ⟨[], by simp [step, redirect_url, redirect_url_f, hsel, hexp]⟩
        · exact ⟨[{ short_url := c, access_time := now, ip_address := h }],
            by simp [step, redirect_url, redirect_url_f, hsel, hexp]⟩
    | report s => exact ⟨[], by simp [step]⟩
  · intro now client_host c u hok
    cases hsel : select_record db c with
    | none => simp [redirect_url, redirect_url_f, hsel] at hok
    | some row =>
      by_cases hexp : is_expired now row.expiration_time
      · simp [redirect_url, redirect_url_f, hsel, hexp] at hok
      · refine ⟨by simp [redirect_url, redirect_url_f, hsel, hexp], row,
          ?_, ?_, ?_⟩
        · have hr' : db.urls.find? (fun x => x.short_url == c) = some row := hsel
          exact List.mem_of_find?_eq_some hr'
        · have hr' : db.urls.find? (fun x => x.short_url == c) = some row := hsel
          have h3 := List.find?_some hr'
          simpa using h3
        · simpa [is_expired] using hexp
  · intro now client_host c hne
    cases hsel : select_record db c with
    | none => simp [redirect_url, redirect_url_f, hsel]
    | some row =>
      by_cases hexp : is_expired now row.expiration_time
      · simp [redirect_url, redirect_url_f, hsel, hexp]
      · have hok : (redirect_url now client_host c db).2 =
            RedirectResult.ok row.original_url := by
          simp [redirect_url, redirect_url_f, hsel, hexp]
        exact absurd hok (hne row.original_url)
  · intro now ttl u
    by_cases h : db.urls.any (fun x => x.short_url == generate_short_url u)
    · rw [step, shorten_url_fst_present now ttl u db h]
    · rw [Bool.not_eq_true] at h
      rw [step, shorten_url_fst_free now ttl u db h]

/-- Witness for C6 at the concrete sample database: the successful sample
resolution appends exactly its own log entry. -/
theorem c6_log_invariant_witness :
    (redirect_url 9 "1.2.3.4" "abc123" sampleDB).1.logs = sampleDB.logs ++
        [{ short_url := "abc123", access_time := 9, ip_address := "1.2.3.4" }] ∧
      ∃ r ∈ sampleDB.urls, r.short_url = "abc123" ∧ ¬ (9 : Nat) > r.expiration_time :=
  (c6_log_invariant sampleDB (Op.report "x")).2.1 9 "1.2.3.4" "abc123"
    "https://example.com/" (by decide)

/-- `redirect_url` iterated over a list of `(now, client_host)` accesses of
one code: the database resulting from resolving the code once per access,
in order (the sqlite write lock serialises the transactions; the counter
write is the in-database relative update
`SET access_count = access_count + 1`, never a value computed from a
previously read counter). -/
def runResolves (code : String) (accesses : List (Nat × String)) (db : DB) :
    DB :=
  accesses.foldl (fun d a => (redirect_url a.1 a.2 code d).1) db

/-- Iterated successful resolutions add exactly one to the stored counter
per access. -/
theorem runResolves_select (code : String) (accesses : List (Nat × String))
    (db : DB) (r : UrlRecord) (hr : select_record db code = some r)
    (hok : ∀ a ∈ accesses, ¬ a.1 > r.expiration_time) :
    select_record (runResolves code accesses db) code =
      some { r with access_count := r.access_count + accesses.length } := by
  induction accesses generalizing db r with
  | nil => simpa [runResolves] using hr
  | cons a rest ih =>
    have hstep := select_record_after_success db a.1 a.2 code r hr
      (hok a (List.mem_cons_self a rest))
    have hrec := ih (redirect_url a.1 a.2 code db).1
      { r with access_count := r.access_count + 1 } hstep
      (fun x hx => hok x (List.mem_cons_of_mem a hx))
    have hrun : runResolves code (a :: rest) db =
        runResolves code rest (redirect_url a.1 a.2 code db).1 := rfl
    rw [hrun, hrec]
    simp [Nat.add_assoc, Nat.add_comm 1 rest.length]

/-- C9: starting from a stored record, a batch of `N` resolutions of its
code, all before expiry, raises the stored counter by exactly `N`, and each
of the `N` resolutions individually succeeds with the stored URL — no
increment is lost, because each transaction's write is the relative
in-database update, serialised by the store. -/
theorem c9_no_lost_updates (db : DB) (code : String) (r : UrlRecord)
    (accesses : List (Nat × String))
    (hr : select_record db code = some r)
    (hok : ∀ a ∈ accesses, ¬ a.1 > r.expiration_time) :
    select_record (runResolves code accesses db) code =
      some { r with access_count := r.access_count + accesses.length } ∧
    ∀ i (hi : i < accesses.length),
      (redirect_url (accesses.get ⟨i, hi⟩).1 (accesses.get ⟨i, hi⟩).2 code
        (runResolves code (accesses.take i) db)).2 =
        RedirectResult.ok r.original_url := by
  refine ⟨runResolves_select code accesses db r hr hok, ?_⟩
  intro i hi
  have hsel := runResolves_select code (accesses.take i) db r hr
    (fun a ha => hok a (List.take_subset i accesses ha))
  have hexp : ¬ (accesses.get ⟨i, hi⟩).1 >
      ({ r with access_count := r.access_count + (accesses.take i).length }
        : UrlRecord).expiration_time :=
    hok (accesses.get ⟨i, hi⟩) (List.get_mem accesses i hi)
  rw [redirect_url_success (runResolves code (accesses.take i) db)
    (accesses.get ⟨i, hi⟩).1 (accesses.get ⟨i, hi⟩).2 code
    { r with access_count := r.access_count + (accesses.take i).length }
    hsel hexp]

/-- Witness for C9: two concrete resolutions of the sample code raise the
counter from 0 to 2. -/
theorem c9_no_lost_updates_witness :
    select_record (runResolves "abc123" [(1, "1.2.3.4"), (2, "5.6.7.8")]
        sampleDB) "abc123" =
      some { original_url := "https://example.com/", short_url := "abc123",
             creation_time := 0, expiration_time := 86400,
             access_count := 2 } :=
  (c9_no_lost_updates sampleDB "abc123" sampleRecord
    [(1, "1.2.3.4"), (2, "5.6.7.8")] (by decide) (by decide)).1

/-- A URL whose MD5 hexdigest starts with `275320`. -/
def urlA : String := "https://example.com/page6923"

/-- A different URL whose MD5 hexdigest also starts with `275320`. -/
def urlB : String := "https://example.com/page7627"

/-- C1 evidence: on a real 6-hex-character digest collision, the second
creation is handed the very same candidate code (no alternative candidate,
no bounded retry, no `GenerationExhausted`: the endpoint has no error path
at all), the `IntegrityError` is swallowed so nothing is stored for the
second URL, and the shared code does not resolve to the second URL's
original. -/
theorem c1_collision_not_retried :
    urlA ≠ urlB ∧
    generate_short_url urlA = generate_short_url urlB ∧
    (shorten_url 0 24 urlB (shorten_url 0 24 urlA DB.empty).1).2 =
      (shorten_url 0 24 urlA DB.empty).2 ∧
    (shorten_url 0 24 urlB (shorten_url 0 24 urlA DB.empty).1).1 =
      (shorten_url 0 24 urlA DB.empty).1 ∧
    ∀ r ∈ (shorten_url 0 24 urlB (shorten_url 0 24 urlA DB.empty).1).1.urls,
      r.original_url ≠ urlB := by
  decide

/-- C3 evidence: after creating `urlA` and then `urlB` (whose digests
collide), resolving the code returned for `urlB` well before its
`created_at + ttl` yields `urlA`, not `urlB` — the round trip fails. -/
theorem c3_roundtrip_fails_on_collision :
    (redirect_url 1 "1.2.3.4"
        (shorten_url 0 24 urlB (shorten_url 0 24 urlA DB.empty).1).2
        (shorten_url 0 24 urlB (shorten_url 0 24 urlA DB.empty).1).1).2 =
      RedirectResult.ok urlA ∧ urlA ≠ urlB := by
  decide

end UrlShortener
